import Mathlib

/-!
Verification development for the PTY session bridge (`pty_bridge.py`).

The program is embedded shallowly: the observable OS interactions of
`create_pty_session` (writes to the PTY master, `TIOCSWINSZ` ioctls,
signals, stdout writes/flushes, descriptor closes, child termination and
reaping) are modelled as an explicit trace of `Effect`s, and the control
flow of the multiplex loop is modelled as a function over a script of
readiness events.  Bytes are `List Nat` (each entry one byte), Python
strings are `List Char`.
-/

set_option autoImplicit false

namespace PtyBridge

/-- Signals the bridge sends (`signal.SIGWINCH`, `signal.SIGINT`, and the
`SIGTERM` underlying `process.terminate()`). -/
inductive Signal
  | SIGWINCH
  | SIGINT
  | SIGTERM
deriving DecidableEq

/-- The device-level window-size record passed to the `TIOCSWINSZ` ioctl,
mirroring `struct.pack('hhhh', rows, cols, 0, 0)` field for field: the
record stores rows first, then columns, then the two pixel fields. -/
structure WinSize where
  ws_row : Int
  ws_col : Int
  ws_xpixel : Int
  ws_ypixel : Int
deriving DecidableEq

/-- One observable OS interaction of the bridge.  `osKill p s` models
`os.kill(p, s)`; a negative `p` would denote a process-group target
(POSIX `kill` semantics), a positive `p` targets the single process. -/
inductive Effect
  | openPty
  | spawnChild
  | closeSlave
  | writeMaster (data : List Nat)
  | setWinsize (ws : WinSize)
  | osKill (p : Int) (sig : Signal)
  | writeStdout (data : List Nat)
  | flushStdout
  | closeMaster
  | terminateChild
  | waitChild
deriving DecidableEq

/-- The bytes of the literal `b'###RESIZE###'` (ASCII). -/
def resizeSentinel : List Nat :=
  [35, 35, 35, 82, 69, 83, 73, 90, 69, 35, 35, 35]

/-- `d.startswith(s)` on byte strings. -/
def listStartsWith (s d : List Nat) : Bool :=
  decide (d.take s.length = s)

/-- The whitespace characters stripped by Python's `str.strip()` and
`int()` (ASCII subset: space, tab, newline, carriage return, vertical
tab, form feed). -/
def isPySpace (c : Char) : Bool :=
  c = ' ' || c = '\t' || c = '\n' || c = '\r' || c = Char.ofNat 11 || c = Char.ofNat 12

/-- Python `str.strip()`: drop leading and trailing whitespace. -/
def pyStripChars (cs : List Char) : List Char :=
  ((cs.dropWhile isPySpace).reverse.dropWhile isPySpace).reverse

/-- `bytes.decode()`.  The model covers the ASCII subset exactly; any
byte ≥ 128 is treated as a decode failure.  (Real UTF-8 would decode some
such inputs, but every failure mode of the parse lands in the same
silent `except` handler, and the control protocol is ASCII.) -/
def decodeBytes (bs : List Nat) : Option (List Char) :=
  if bs.all (fun b => b < 128) then some (bs.map Char.ofNat) else none

/-- Python `str.split(',')` on character lists: `""` gives `[""]`,
`","` gives `["", ""]`, separators are single commas. -/
def splitOnComma : List Char → List (List Char)
  | [] => [[]]
  | c :: rest =>
    if c = ',' then [] :: splitOnComma rest
    else
      match splitOnComma rest with
      | f :: more => (c :: f) :: more
      | [] => [[c]]

/-- Decimal value of a digit string (most significant first). -/
def digitsVal (cs : List Char) : Nat :=
  cs.foldl (fun a c => a * 10 + (c.toNat - 48)) 0

/-- Python `int(str)`: strip whitespace, optional single sign, then a
nonempty run of decimal digits.  (Underscore separators and non-ASCII
digits, which CPython also accepts, are not modelled; no claim touches
them, and a parse failure lands in the same `except` handler.) -/
def parsePyInt (cs : List Char) : Option Int :=
  match pyStripChars cs with
  | [] => none
  | c :: rest =>
    if c = '-' then
      if rest ≠ [] && rest.all Char.isDigit then some (-(digitsVal rest : Int)) else none
    else if c = '+' then
      if rest ≠ [] && rest.all Char.isDigit then some ((digitsVal rest : Int)) else none
    else
      if (c :: rest).all Char.isDigit then some ((digitsVal (c :: rest) : Int)) else none

/-- Lines 51-52: `payload = data[len('###RESIZE###'):].decode().strip()`
followed by `cols, rows = [int(x) for x in payload.split(',')]`.
`none` means some step raised (decode error, non-numeric field, or a
field count other than two) and the `except` swallowed it. -/
def parseResizePayload (tail : List Nat) : Option (Int × Int) :=
  match decodeBytes tail with
  | none => none
  | some cs =>
    match splitOnComma (pyStripChars cs) with
    | [f1, f2] =>
      match parsePyInt f1, parsePyInt f2 with
      | some cols, some rows => some (cols, rows)
      | _, _ => none
    | _ => none

/-- `struct.pack('h', v)` succeeds exactly on signed 16-bit values;
outside that range it raises `struct.error` (swallowed by the handler). -/
def fitsInt16 (v : Int) : Bool :=
  decide (-32768 ≤ v ∧ v ≤ 32767)

/-- Lines 46-58, the stdin branch of the loop body after `os.read`
returned `data`: an empty chunk is skipped; a chunk starting with the
resize sentinel is parsed and, when the payload parses and packs, the
ioctl and the `SIGWINCH` to the child's pid happen (in that order);
any parse/pack failure produces no effect; any other chunk is written
verbatim to the master. -/
def handleStdinData (pid : Nat) (data : List Nat) : List Effect :=
  if data = [] then []
  else if listStartsWith resizeSentinel data then
    match parseResizePayload (data.drop resizeSentinel.length) with
    | some (cols, rows) =>
      if fitsInt16 rows && fitsInt16 cols then
        [Effect.setWinsize ⟨rows, cols, 0, 0⟩, Effect.osKill (Int.ofNat pid) Signal.SIGWINCH]
      else []
    | none => []
  else [Effect.writeMaster data]

/-- One source reported ready by `select` in one loop pass; the payload
is the result of the `os.read` on it (`none` = the read raised `OSError`). -/
inductive ReadySource
  | stdinReady (res : Option (List Nat))
  | masterReady (res : Option (List Nat))

/-- One pass of the `while process.poll() is None` loop: either a
`select` round with its ready sources, or a `KeyboardInterrupt` raised
during the pass. -/
inductive Iteration
  | selectRound (ready : List ReadySource)
  | interruptRound

/-- Lines 42-70, the `for fd in ready` body: sources are handled in
order; an `OSError` on a read executes `break`, which exits only this
`for` loop (the remaining ready sources of this pass are skipped, the
`while` loop is unaffected).  An empty master read writes nothing and
does not break; a non-empty master read is written to stdout and
flushed. -/
def processReady (pid : Nat) : List ReadySource → List Effect
  | [] => []
  | ReadySource.stdinReady none :: _ => []
  | ReadySource.stdinReady (some d) :: rest =>
    handleStdinData pid d ++ processReady pid rest
  | ReadySource.masterReady none :: _ => []
  | ReadySource.masterReady (some d) :: rest =>
    (if d = [] then [] else [Effect.writeStdout d, Effect.flushStdout]) ++ processReady pid rest

/-- Lines 37-74: run the multiplex loop over a script of passes.  The
script ending models `process.poll()` turning non-`None` (natural exit);
a `KeyboardInterrupt` is caught by the handler OUTSIDE the `while` loop,
which sends `SIGINT` to the child's pid and falls through to `finally` —
so the remaining passes are never executed.  Returns the trace and
whether the loop ended by interrupt. -/
def runLoop (pid : Nat) : List Iteration → List Effect × Bool
  | [] => ([], false)
  | Iteration.interruptRound :: _ =>
    ([Effect.osKill (Int.ofNat pid) Signal.SIGINT], true)
  | Iteration.selectRound ready :: rest =>
    let r := runLoop pid rest
    (processReady pid ready ++ r.1, r.2)

/-- Lines 76-79, the `finally` block: `os.close(master)`,
`process.terminate()`, `process.wait()` in textual order.  Python
executes them sequentially: if a step raises, the later statements of
the block are NOT executed (the exception propagates).  The flags say
which step raises; the trace records the steps that were invoked. -/
def teardownEffects (closeRaises terminateRaises : Bool) : List Effect :=
  Effect.closeMaster ::
    (if closeRaises then []
     else Effect.terminateChild ::
       (if terminateRaises then [] else [Effect.waitChild]))

/-- How session establishment (lines 16-35) went: `ptyFail` models
`pty.openpty()` raising (nothing allocated), `spawnFail` models
`subprocess.Popen` raising (master and slave already allocated; the
exception propagates BEFORE the `try`/`finally` is entered, so no
cleanup runs), `ok` is a successful spawn. -/
inductive SetupOutcome
  | ptyFail
  | spawnFail
  | ok

/-- The whole of `create_pty_session`: setup, then (on success) close
the slave, run the multiplex loop, and run the `finally` teardown. -/
def create_pty_session (out : SetupOutcome) (pid : Nat) (events : List Iteration)
    (closeRaises terminateRaises : Bool) : List Effect :=
  match out with
  | SetupOutcome.ptyFail => []
  | SetupOutcome.spawnFail => [Effect.openPty]
  | SetupOutcome.ok =>
    Effect.openPty :: Effect.spawnChild :: Effect.closeSlave ::
      ((runLoop pid events).1 ++ teardownEffects closeRaises terminateRaises)

/-- Does an effect signal a whole process group?  Under POSIX `kill`
semantics that requires a negative pid argument. -/
def signalsGroup (e : Effect) : Bool :=
  match e with
  | Effect.osKill p _ => decide (p < 0)
  | _ => false

/-- Lines 86-93 of `__main__`: `command = " ".join(sys.argv[3:]) if
len(sys.argv) > 3 else ""`, then `[shell, "-l", "-c", command]` if
`command` is truthy (non-empty), else `[shell, "-l"]`.  `args` is
`sys.argv[3:]`. -/
def shell_command (shell : String) (args : List String) : List String :=
  let command : String := if args = [] then "" else String.intercalate " " args
  if command = "" then [shell, "-l"] else [shell, "-l", "-c", command]

/-- ASCII bytes of a string, for writing concrete stdin chunks. -/
def strBytes (s : String) : List Nat :=
  s.data.map Char.toNat

/-- The ASCII digit character for `m` (meaningful for `m < 10`). -/
def digitChar (m : Nat) : Char :=
  Char.ofNat (48 + m)

/-- Little-endian decimal digit characters of `n`. -/
def natDigitsRev (n : Nat) : List Char :=
  if h : n < 10 then [digitChar n]
  else digitChar (n % 10) :: natDigitsRev (n / 10)
decreasing_by exact Nat.div_lt_self (by omega) (by omega)

/-- Decimal digit characters of `n`, most significant first. -/
def natDigits (n : Nat) : List Char :=
  (natDigitsRev n).reverse

/-- The canonical decimal literal of an integer, as Python would print
and re-read it. -/
def intLit (v : Int) : List Char :=
  if v < 0 then '-' :: natDigits v.natAbs else natDigits v.natAbs

/-- A character that can appear in a digit run: an ASCII decimal digit,
hence not a sign, not a comma, not whitespace, and below 128. -/
def goodDigit (c : Char) : Prop :=
  c.isDigit = true ∧ c.toNat < 128 ∧ c ≠ ',' ∧ c ≠ '-' ∧ c ≠ '+' ∧ isPySpace c = false

theorem digitChar_good {m : Nat} (h : m < 10) : goodDigit (digitChar m) := by
  interval_cases m <;> exact ⟨by decide, by decide, by decide, by decide, by decide, by decide⟩

theorem digitChar_toNat {m : Nat} (h : m < 10) : (digitChar m).toNat = 48 + m := by
  interval_cases m <;> decide

theorem natDigitsRev_good (n : Nat) : ∀ c ∈ natDigitsRev n, goodDigit c := by
  induction n using Nat.strong_induction_on with
  | _ n ih =>
    rw [natDigitsRev]
    by_cases h : n < 10
    · simp only [h, dif_pos]
      intro c hc
      rw [List.mem_singleton] at hc
      exact hc ▸ digitChar_good h
    · simp only [h, dif_neg, not_false_iff]
      intro c hc
      rcases List.mem_cons.mp hc with h1 | h2
      · exact h1 ▸ digitChar_good (Nat.mod_lt _ (by omega))
      · exact ih (n / 10) (Nat.div_lt_self (by omega) (by omega)) c h2

theorem natDigits_good (n : Nat) : ∀ c ∈ natDigits n, goodDigit c := by
  intro c hc
  exact natDigitsRev_good n c (List.mem_reverse.mp hc)

theorem natDigitsRev_ne_nil (n : Nat) : natDigitsRev n ≠ [] := by
  rw [natDigitsRev]
  by_cases h : n < 10 <;> simp [h]

theorem natDigits_ne_nil (n : Nat) : natDigits n ≠ [] := by
  intro h
  exact natDigitsRev_ne_nil n (List.reverse_eq_nil_iff.mp h)

theorem digitsVal_append_one (ds : List Char) (c : Char) :
    digitsVal (ds ++ [c]) = digitsVal ds * 10 + (c.toNat - 48) := by
  unfold digitsVal
  rw [List.foldl_append]
  rfl

theorem digitsVal_natDigits (n : Nat) : digitsVal (natDigits n) = n := by
  induction n using Nat.strong_induction_on with
  | _ n ih =>
    unfold natDigits
    rw [natDigitsRev]
    by_cases h : n < 10
    · simp only [h, dif_pos, List.reverse_singleton]
      show digitsVal ([] ++ [digitChar n]) = n
      rw [digitsVal_append_one, digitChar_toNat h]
      simp [digitsVal]
    · simp only [h, dif_neg, not_false_iff, List.reverse_cons]
      rw [digitsVal_append_one, digitChar_toNat (Nat.mod_lt _ (by omega))]
      have hrec : digitsVal (natDigits (n / 10)) = n / 10 :=
        ih (n / 10) (Nat.div_lt_self (by omega) (by omega))
      unfold natDigits at hrec
      rw [hrec]
      omega

theorem dropWhile_noop {p : Char → Bool} :
    ∀ {cs : List Char}, (∀ c ∈ cs, p c = false) → cs.dropWhile p = cs := by
  intro cs h
  cases cs with
  | nil => rfl
  | cons c t =>
    have hc : p c = false := h c (List.mem_cons_self c t)
    simp [List.dropWhile, hc]

theorem pyStrip_noop {cs : List Char} (h : ∀ c ∈ cs, isPySpace c = false) :
    pyStripChars cs = cs := by
  unfold pyStripChars
  rw [dropWhile_noop h]
  rw [dropWhile_noop (fun c hc => h c (List.mem_reverse.mp hc))]
  exact List.reverse_reverse cs

theorem parsePyInt_digit_run {t : List Char} (hne : t ≠ [])
    (hd : ∀ c ∈ t, goodDigit c) : parsePyInt t = some ((digitsVal t : Int)) := by
  have hstrip : pyStripChars t = t :=
    pyStrip_noop (fun c hc => (hd c hc).2.2.2.2.2)
  unfold parsePyInt
  rw [hstrip]
  cases t with
  | nil => exact absurd rfl hne
  | cons c rest =>
    have hc : goodDigit c := hd c (List.mem_cons_self c rest)
    have hcm : c ≠ '-' := hc.2.2.2.1
    have hcp : c ≠ '+' := hc.2.2.2.2.1
    have hall : (c :: rest).all Char.isDigit = true := by
      rw [List.all_eq_true]
      intro x hx
      exact (hd x hx).1
    simp [hcm, hcp, hall]

theorem parsePyInt_neg_digit_run {t : List Char} (hne : t ≠ [])
    (hd : ∀ c ∈ t, goodDigit c) :
    parsePyInt ('-' :: t) = some (-(digitsVal t : Int)) := by
  have hstrip : pyStripChars ('-' :: t) = '-' :: t := by
    apply pyStrip_noop
    intro c hc
    rcases List.mem_cons.mp hc with h1 | h2
    · rw [h1]; decide
    · exact (hd c h2).2.2.2.2.2
  unfold parsePyInt
  rw [hstrip]
  have hall : t.all Char.isDigit = true := by
    rw [List.all_eq_true]
    intro x hx
    exact (hd x hx).1
  simp [hne, hall]

theorem parsePyInt_intLit (v : Int) : parsePyInt (intLit v) = some v := by
  unfold intLit
  by_cases h : v < 0
  · simp only [h, if_pos]
    rw [parsePyInt_neg_digit_run (natDigits_ne_nil _) (natDigits_good _)]
    rw [digitsVal_natDigits]
    congr 1
    omega
  · simp only [h, if_neg, not_false_iff]
    rw [parsePyInt_digit_run (natDigits_ne_nil _) (natDigits_good _)]
    rw [digitsVal_natDigits]
    congr 1
    omega

theorem splitOnComma_no_comma {cs : List Char} (h : ∀ c ∈ cs, c ≠ ',') :
    splitOnComma cs = [cs] := by
  induction cs with
  | nil => rfl
  | cons c t ih =>
    have hc : c ≠ ',' := h c (List.mem_cons_self c t)
    have ht : splitOnComma t = [t] := ih (fun x hx => h x (List.mem_cons_of_mem c hx))
    simp [splitOnComma, hc, ht]

theorem splitOnComma_append {s1 : List Char} (s2 : List Char)
    (h : ∀ c ∈ s1, c ≠ ',') :
    splitOnComma (s1 ++ ',' :: s2) = s1 :: splitOnComma s2 := by
  induction s1 with
  | nil => simp [splitOnComma]
  | cons c t ih =>
    have hc : c ≠ ',' := h c (List.mem_cons_self c t)
    have ht := ih (fun x hx => h x (List.mem_cons_of_mem c hx))
    simp only [List.cons_append, splitOnComma, hc, if_neg, not_false_iff]
    rw [List.append_eq, ht]

theorem decodeBytes_map_toNat {cs : List Char} (h : ∀ c ∈ cs, c.toNat < 128) :
    decodeBytes (cs.map Char.toNat) = some cs := by
  unfold decodeBytes
  have hall : (cs.map Char.toNat).all (fun b => decide (b < 128)) = true := by
    rw [List.all_eq_true]
    intro b hb
    rcases List.mem_map.mp hb with ⟨c, hc, rfl⟩
    exact decide_eq_true (h c hc)
  rw [if_pos hall, List.map_map]
  congr 1
  have : (Char.ofNat ∘ Char.toNat) = id := by
    funext c
    exact Char.ofNat_toNat c
  rw [this, List.map_id]

/-- Every character of an integer literal is ASCII, not a comma and not
whitespace. -/
theorem intLit_chars {v : Int} :
    ∀ c ∈ intLit v, c.toNat < 128 ∧ c ≠ ',' ∧ isPySpace c = false := by
  intro c hc
  unfold intLit at hc
  by_cases h : v < 0
  · rw [if_pos h] at hc
    rcases List.mem_cons.mp hc with h1 | h2
    · rw [h1]; exact ⟨by decide, by decide, by decide⟩
    · have := natDigits_good v.natAbs c h2
      exact ⟨this.2.1, this.2.2.1, this.2.2.2.2.2⟩
  · rw [if_neg h] at hc
    have := natDigits_good v.natAbs c hc
    exact ⟨this.2.1, this.2.2.1, this.2.2.2.2.2⟩

/-- The full parse pipeline of lines 51-52 on a canonical
`<cols>,<rows>` payload recovers exactly the two integers. -/
theorem parseResizePayload_intLit (cols rows : Int) :
    parseResizePayload ((intLit cols ++ ',' :: intLit rows).map Char.toNat) =
      some (cols, rows) := by
  have hdec : decodeBytes ((intLit cols ++ ',' :: intLit rows).map Char.toNat) =
      some (intLit cols ++ ',' :: intLit rows) := by
    apply decodeBytes_map_toNat
    intro c hc
    rcases List.mem_append.mp hc with h1 | h2
    · exact (intLit_chars c h1).1
    · rcases List.mem_cons.mp h2 with h3 | h4
      · rw [h3]; decide
      · exact (intLit_chars c h4).1
  have hstrip : pyStripChars (intLit cols ++ ',' :: intLit rows) =
      intLit cols ++ ',' :: intLit rows := by
    apply pyStrip_noop
    intro c hc
    rcases List.mem_append.mp hc with h1 | h2
    · exact (intLit_chars c h1).2.2
    · rcases List.mem_cons.mp h2 with h3 | h4
      · rw [h3]; decide
      · exact (intLit_chars c h4).2.2
  have hsplit : splitOnComma (intLit cols ++ ',' :: intLit rows) =
      [intLit cols, intLit rows] := by
    rw [splitOnComma_append (intLit rows) (fun c hc => (intLit_chars c hc).2.1)]
    rw [splitOnComma_no_comma (fun c hc => (intLit_chars c hc).2.1)]
  unfold parseResizePayload
  rw [hdec]
  simp only [hstrip, hsplit, parsePyInt_intLit]

example : handleStdinData 7 (strBytes "hello") = [Effect.writeMaster (strBytes "hello")] := by
  decide

example : handleStdinData 7 (strBytes "###RESIZE###80,24\n") =
    [Effect.setWinsize ⟨24, 80, 0, 0⟩, Effect.osKill 7 Signal.SIGWINCH] := by
  decide

example : handleStdinData 7 (strBytes "###RESIZE###garbage") = [] := by
  decide

example : handleStdinData 7 (strBytes "###RESIZE###40000,24") = [] := by
  decide

example : handleStdinData 7 (strBytes "###RESIZE###-1,-1") =
    [Effect.setWinsize ⟨-1, -1, 0, 0⟩, Effect.osKill 7 Signal.SIGWINCH] := by
  decide

example : shell_command "/bin/sh" ["echo", "hi"] = ["/bin/sh", "-l", "-c", "echo hi"] := by
  decide

example : shell_command "/bin/sh" [""] = ["/bin/sh", "-l"] := by
  decide

/-- A chunk that starts with the sentinel is nonempty. -/
theorem startsWith_sentinel_ne_nil {data : List Nat}
    (h : listStartsWith resizeSentinel data = true) : data ≠ [] := by
  intro hd
  rw [hd] at h
  exact absurd h (by decide)

/-- Shared shape lemma for the successful-resize path of lines 49-57:
sentinel chunk, payload parses, both values pack into `short` — then the
trace is exactly the ioctl followed by the `SIGWINCH` to the child's pid. -/
theorem handleStdinData_resize_eq (pid : Nat) (data : List Nat) (cols rows : Int)
    (hs : listStartsWith resizeSentinel data = true)
    (hp : parseResizePayload (data.drop resizeSentinel.length) = some (cols, rows))
    (hr : fitsInt16 rows = true) (hc : fitsInt16 cols = true) :
    handleStdinData pid data =
      [Effect.setWinsize ⟨rows, cols, 0, 0⟩,
       Effect.osKill (Int.ofNat pid) Signal.SIGWINCH] := by
  have hne : data ≠ [] := startsWith_sentinel_ne_nil hs
  unfold handleStdinData
  rw [if_neg hne, if_pos hs, hp]
  simp [hr, hc]

/-- C1: a stdin chunk beginning with `###RESIZE###` is never written to
the PTY master — whatever the remainder is — and when the payload does
not parse the handler produces no effect at all; the multiplex loop
simply proceeds with the rest of the script. -/
theorem c1_resize_chunk_never_forwarded (pid : Nat) (data : List Nat)
    (rest : List Iteration)
    (h : listStartsWith resizeSentinel data = true) :
    (∀ bs, Effect.writeMaster bs ∉ handleStdinData pid data) ∧
    (parseResizePayload (data.drop resizeSentinel.length) = none →
      handleStdinData pid data = []) ∧
    runLoop pid (Iteration.selectRound [ReadySource.stdinReady (some data)] :: rest) =
      (handleStdinData pid data ++ (runLoop pid rest).1, (runLoop pid rest).2) := by
  have hne : data ≠ [] := startsWith_sentinel_ne_nil h
  refine ⟨?_, ?_, ?_⟩
  · intro bs
    unfold handleStdinData
    rw [if_neg hne, if_pos h]
    cases hp : parseResizePayload (data.drop resizeSentinel.length) with
    | none => simp
    | some pr =>
      rcases pr with ⟨cols, rows⟩
      by_cases hf : (fitsInt16 rows && fitsInt16 cols) = true <;> simp [hf]
  · intro hp
    unfold handleStdinData
    rw [if_neg hne, if_pos h, hp]
  · simp [runLoop, processReady]

/-- C1 witness: the malformed chunk `###RESIZE###oops` forwards nothing
and has no effect. -/
theorem c1_witness :
    Effect.writeMaster (strBytes "x") ∉
      handleStdinData 7 (strBytes "###RESIZE###oops") ∧
    handleStdinData 7 (strBytes "###RESIZE###oops") = [] :=
  ⟨(c1_resize_chunk_never_forwarded 7 (strBytes "###RESIZE###oops") [] (by decide)).1
      (strBytes "x"),
   (c1_resize_chunk_never_forwarded 7 (strBytes "###RESIZE###oops") [] (by decide)).2.1
      (by decide)⟩

/-- C2 counterexample: in `###RESIZE###40000,24` both fields parse as
integers, yet `struct.pack('h', 40000)` raises `struct.error` (40000
exceeds the signed 16-bit field), the handler swallows it, and nothing
is applied — no ioctl, no signal — contradicting the claim that every
integer-parsing payload is applied. -/
theorem c2_counterexample :
    parseResizePayload ((strBytes "###RESIZE###40000,24").drop resizeSentinel.length) =
      some (40000, 24) ∧
    handleStdinData 7 (strBytes "###RESIZE###40000,24") = [] := by
  constructor <;> decide

/-- C2 (amended): for a sentinel chunk whose payload parses as
`(columns, rows)` AND whose two values both fit the device record's
signed 16-bit fields, the handler sets the window size — rows stored
before columns, per `struct.pack('hhhh', rows, cols, 0, 0)` — and then
delivers `SIGWINCH` to the child. -/
theorem c2_resize_applies_geometry (pid : Nat) (data : List Nat) (cols rows : Int)
    (hs : listStartsWith resizeSentinel data = true)
    (hp : parseResizePayload (data.drop resizeSentinel.length) = some (cols, rows))
    (hr : fitsInt16 rows = true) (hc : fitsInt16 cols = true) :
    handleStdinData pid data =
      [Effect.setWinsize ⟨rows, cols, 0, 0⟩,
       Effect.osKill (Int.ofNat pid) Signal.SIGWINCH] :=
  handleStdinData_resize_eq pid data cols rows hs hp hr hc

/-- C2 witness: the spec's scenario chunk `###RESIZE###80,24\n`. -/
theorem c2_witness :
    handleStdinData 7 (strBytes "###RESIZE###80,24\n") =
      [Effect.setWinsize ⟨24, 80, 0, 0⟩, Effect.osKill 7 Signal.SIGWINCH] :=
  c2_resize_applies_geometry 7 (strBytes "###RESIZE###80,24\n") 80 24
    (by decide) (by decide) (by decide) (by decide)

/-- C3 counterexample: a `KeyboardInterrupt` while the child is alive is
followed by a further ready stdin chunk in the script, but the bridge
never processes it: the `except KeyboardInterrupt` handler sits OUTSIDE
the `while` loop, so the loop is over — `SIGINT` is sent and control
falls into `finally`.  The chunk `"x"` is not forwarded, refuting "the
multiplex loop then continues running". -/
theorem c3_counterexample :
    runLoop 7 [Iteration.interruptRound,
        Iteration.selectRound [ReadySource.stdinReady (some (strBytes "x"))]] =
      ([Effect.osKill 7 Signal.SIGINT], true) ∧
    Effect.writeMaster (strBytes "x") ∉
      (runLoop 7 [Iteration.interruptRound,
        Iteration.selectRound [ReadySource.stdinReady (some (strBytes "x"))]]).1 := by
  constructor <;> decide

/-- C3 (amended): on an external interrupt the bridge sends `SIGINT` to
the child and the multiplex loop exits at once — no later event is
processed — after which teardown (close master, terminate, reap) runs. -/
theorem c3_interrupt_exits_loop (pid : Nat) (rest : List Iteration) (c t : Bool) :
    create_pty_session SetupOutcome.ok pid (Iteration.interruptRound :: rest) c t =
      [Effect.openPty, Effect.spawnChild, Effect.closeSlave,
       Effect.osKill (Int.ofNat pid) Signal.SIGINT] ++ teardownEffects c t := by
  simp [create_pty_session, runLoop]

/-- C4 counterexample: when `subprocess.Popen` raises, the exception
propagates before the `try`/`finally` is entered — the concrete trace is
`[openPty]` only: neither the master nor the slave descriptor is closed
before the failure surfaces. -/
theorem c4_counterexample :
    create_pty_session SetupOutcome.spawnFail 7 [] false false = [Effect.openPty] ∧
    Effect.closeMaster ∉ create_pty_session SetupOutcome.spawnFail 7 [] false false ∧
    Effect.closeSlave ∉ create_pty_session SetupOutcome.spawnFail 7 [] false false := by
  refine ⟨rfl, ?_, ?_⟩ <;> decide

/-- C4 (amended): if the child cannot be created, no partially-started
session runs (the child is never spawned and the loop never executes),
but the already-allocated PTY descriptors are NOT released by the
bridge: the spawn exception propagates before any cleanup. -/
theorem c4_spawn_failure_cleanup (pid : Nat) (events : List Iteration) (c t : Bool) :
    Effect.openPty ∈ create_pty_session SetupOutcome.spawnFail pid events c t ∧
    Effect.spawnChild ∉ create_pty_session SetupOutcome.spawnFail pid events c t ∧
    Effect.closeMaster ∉ create_pty_session SetupOutcome.spawnFail pid events c t ∧
    Effect.closeSlave ∉ create_pty_session SetupOutcome.spawnFail pid events c t := by
  refine ⟨?_, ?_, ?_, ?_⟩ <;> simp [create_pty_session]

/-- C5 counterexample: if `os.close(master)` raises in the `finally`
block, Python abandons the rest of the block — `process.terminate()` and
`process.wait()` never run, refuting "every one of these steps executes
even if an earlier step fails". -/
theorem c5_counterexample :
    Effect.terminateChild ∉ teardownEffects true false ∧
    Effect.waitChild ∉ teardownEffects true false := by
  constructor <;> decide

/-- C5 (amended): teardown runs on every exit path of the multiplex
loop and attempts close-master, terminate, wait in this order; when no
step fails all three execute, but a failing step skips everything after
it (a close failure skips terminate and wait; a terminate failure skips
wait). -/
theorem c5_teardown_order (pid : Nat) (events : List Iteration) (c t : Bool) :
    create_pty_session SetupOutcome.ok pid events c t =
      (Effect.openPty :: Effect.spawnChild :: Effect.closeSlave ::
        (runLoop pid events).1) ++ teardownEffects c t ∧
    teardownEffects false false =
      [Effect.closeMaster, Effect.terminateChild, Effect.waitChild] ∧
    teardownEffects true t = [Effect.closeMaster] ∧
    teardownEffects false true = [Effect.closeMaster, Effect.terminateChild] :=
  ⟨by simp [create_pty_session], rfl, rfl, rfl⟩

/-- C6 counterexample: an empty master read does not break the
multiplex loop — a later pass still runs and produces output; and even
an `OSError` on the master read only breaks the inner `for` over the
ready sources, so there too the loop continues into the next pass. -/
theorem c6_counterexample :
    (runLoop 7 [Iteration.selectRound [ReadySource.masterReady (some [])],
        Iteration.selectRound [ReadySource.masterReady (some (strBytes "hi"))]]).1 =
      [Effect.writeStdout (strBytes "hi"), Effect.flushStdout] ∧
    (runLoop 7 [Iteration.selectRound [ReadySource.masterReady none],
        Iteration.selectRound [ReadySource.masterReady (some (strBytes "hi"))]]).1 =
      [Effect.writeStdout (strBytes "hi"), Effect.flushStdout] := by
  constructor <;> decide

/-- C6 (amended): on the master-readable path a non-empty read is
written verbatim to stdout and flushed immediately, an empty read writes
nothing and does not break anything, and a read error stops only the
remaining ready sources of the current pass — the multiplex loop itself
continues with the next pass regardless. -/
theorem c6_master_read_behavior (pid : Nat) (d : List Nat)
    (others ready : List ReadySource) (rest : List Iteration) :
    processReady pid (ReadySource.masterReady (some d) :: others) =
      (if d = [] then [] else [Effect.writeStdout d, Effect.flushStdout]) ++
        processReady pid others ∧
    processReady pid (ReadySource.masterReady (some []) :: others) =
      processReady pid others ∧
    processReady pid (ReadySource.masterReady none :: others) = [] ∧
    runLoop pid (Iteration.selectRound ready :: rest) =
      (processReady pid ready ++ (runLoop pid rest).1, (runLoop pid rest).2) :=
  ⟨rfl, rfl, rfl, rfl⟩

/-- C7 counterexample: a successfully applied resize emits
`os.kill(pid, SIGWINCH)` with the child's positive pid — no effect in
the trace targets a process group (which under POSIX `kill` semantics
would need a negative pid), refuting "sent to the child's process
group, not merely to the single child process". -/
theorem c7_counterexample :
    handleStdinData 7 (strBytes "###RESIZE###80,24") =
      [Effect.setWinsize ⟨24, 80, 0, 0⟩, Effect.osKill 7 Signal.SIGWINCH] ∧
    (handleStdinData 7 (strBytes "###RESIZE###80,24")).all
      (fun e => !signalsGroup e) = true := by
  constructor <;> decide

/-- C7 (amended): whenever a resize control message is successfully
applied, the window-change signal is delivered by `os.kill` to the
single child process (its positive pid); no emitted effect targets a
whole process group. -/
theorem c7_winch_targets_single_process (pid : Nat) (data : List Nat)
    (cols rows : Int)
    (hs : listStartsWith resizeSentinel data = true)
    (hp : parseResizePayload (data.drop resizeSentinel.length) = some (cols, rows))
    (hr : fitsInt16 rows = true) (hc : fitsInt16 cols = true) :
    Effect.osKill (Int.ofNat pid) Signal.SIGWINCH ∈ handleStdinData pid data ∧
    ∀ e ∈ handleStdinData pid data, signalsGroup e = false := by
  have heq := handleStdinData_resize_eq pid data cols rows hs hp hr hc
  rw [heq]
  refine ⟨by simp, ?_⟩
  intro e he
  rcases List.mem_cons.mp he with h1 | h2
  · rw [h1]; rfl
  · rw [List.mem_singleton] at h2
    rw [h2]
    unfold signalsGroup
    simp

/-- C7 witness: pid 7, chunk `###RESIZE###80,24`. -/
theorem c7_witness :
    Effect.osKill 7 Signal.SIGWINCH ∈
      handleStdinData 7 (strBytes "###RESIZE###80,24") ∧
    signalsGroup (Effect.osKill 7 Signal.SIGWINCH) = false :=
  ⟨(c7_winch_targets_single_process 7 (strBytes "###RESIZE###80,24") 80 24
      (by decide) (by decide) (by decide) (by decide)).1,
   (c7_winch_targets_single_process 7 (strBytes "###RESIZE###80,24") 80 24
      (by decide) (by decide) (by decide) (by decide)).2
     (Effect.osKill 7 Signal.SIGWINCH) (by decide)⟩

/-- C8 counterexample: invoking the bridge with the single extra
command word `""` supplies a command word, but `" ".join` gives the
empty string, `if command:` is falsy, and the child argv is
`[shell, "-l"]` — not `[shell, "-l", "-c", ""]` as the claim requires. -/
theorem c8_counterexample :
    shell_command "/bin/sh" [""] = ["/bin/sh", "-l"] ∧
    shell_command "/bin/sh" [""] ≠ ["/bin/sh", "-l", "-c", ""] := by
  constructor
  · rfl
  · decide

/-- C8 (amended): the child argv is `[shell, "-l", "-c", command]` with
`command` the space-join of the extra words exactly when that join is a
non-empty string; otherwise (no extra words, or words joining to the
empty string) it is `[shell, "-l"]`. -/
theorem c8_shell_command_shape (shell : String) (args : List String) :
    shell_command shell args =
      (if String.intercalate " " args = "" then [shell, "-l"]
       else [shell, "-l", "-c", String.intercalate " " args]) := by
  unfold shell_command
  cases args with
  | nil => rfl
  | cons a t => rfl

/-- C9: sentinel detection looks only at the initial bytes of each
individual chunk (reads are bounded at 1024 bytes, but the detection
logic itself depends on no bound): any nonempty chunk that does not
BEGIN with `###RESIZE###` is written verbatim to the master, sentinel
bytes in its interior notwithstanding, and each ready stdin chunk of a
pass is handled independently of the others. -/
theorem c9_non_sentinel_forwarded_verbatim (pid : Nat) (data : List Nat)
    (hne : data ≠ []) (hs : listStartsWith resizeSentinel data = false) :
    handleStdinData pid data = [Effect.writeMaster data] ∧
    ∀ others : List ReadySource,
      processReady pid (ReadySource.stdinReady (some data) :: others) =
        Effect.writeMaster data :: processReady pid others := by
  have h1 : handleStdinData pid data = [Effect.writeMaster data] := by
    unfold handleStdinData
    rw [if_neg hne, if_neg (by rw [hs]; exact Bool.false_ne_true)]
  refine ⟨h1, ?_⟩
  intro others
  show handleStdinData pid data ++ processReady pid others = _
  rw [h1]
  rfl

/-- C9 witness: a chunk with the sentinel embedded mid-chunk (as after a
split read) is forwarded untouched. -/
theorem c9_witness :
    handleStdinData 7 (strBytes "ab###RESIZE###80,24") =
      [Effect.writeMaster (strBytes "ab###RESIZE###80,24")] ∧
    processReady 7 [ReadySource.stdinReady (some (strBytes "ab###RESIZE###80,24"))] =
      [Effect.writeMaster (strBytes "ab###RESIZE###80,24")] :=
  ⟨(c9_non_sentinel_forwarded_verbatim 7 (strBytes "ab###RESIZE###80,24")
      (by decide) (by decide)).1,
   (c9_non_sentinel_forwarded_verbatim 7 (strBytes "ab###RESIZE###80,24")
      (by decide) (by decide)).2 []⟩

/-- C10: the parser validates nothing beyond integer syntax — for ANY
pair of integers that fit the signed 16-bit winsize fields, zero and
negative values included, the canonical `###RESIZE###<cols>,<rows>`
message is applied to the device record and `SIGWINCH` is sent. -/
theorem c10_no_range_validation (pid : Nat) (cols rows : Int)
    (hc1 : -32768 ≤ cols) (hc2 : cols ≤ 32767)
    (hr1 : -32768 ≤ rows) (hr2 : rows ≤ 32767) :
    handleStdinData pid
        (resizeSentinel ++ (intLit cols ++ ',' :: intLit rows).map Char.toNat) =
      [Effect.setWinsize ⟨rows, cols, 0, 0⟩,
       Effect.osKill (Int.ofNat pid) Signal.SIGWINCH] := by
  apply handleStdinData_resize_eq
  · unfold listStartsWith
    rw [List.take_left]
    exact decide_eq_true rfl
  · rw [List.drop_left]
    exact parseResizePayload_intLit cols rows
  · exact decide_eq_true ⟨hr1, hr2⟩
  · exact decide_eq_true ⟨hc1, hc2⟩

/-- C10 witness: `###RESIZE###-1,-1` is applied, not rejected. -/
theorem c10_witness :
    handleStdinData 7
        (resizeSentinel ++ (intLit (-1) ++ ',' :: intLit (-1)).map Char.toNat) =
      [Effect.setWinsize ⟨-1, -1, 0, 0⟩, Effect.osKill 7 Signal.SIGWINCH] :=
  c10_no_range_validation 7 (-1) (-1) (by decide) (by decide) (by decide) (by decide)

end PtyBridge
